import Mathlib

/-!
Verification of the xv6 fork's trap dispatcher (`kernel/trap.c`) and e1000
network driver (`kernel/e1000.c`), via a shallow embedding of the two source
files into Lean.  Machine integers are modelled as `Nat` with explicit
`% 2^w` where overflow can matter; fallible paths (`panic`) return `Option`;
calls to external collaborators (PLIC, UART, virtio, `net_rx`, `syscall`,
`exit`, the scheduler) are recorded as events in a trace.
-/

namespace Xv6

/-! ## Hardware constants

`E1000_TXD_STAT_DD`, `E1000_TXD_CMD_EOP/RS`, `E1000_RXD_STAT_DD` come from
`e1000_dev.h` (the Intel e1000 ABI); `UART0_IRQ`, `VIRTIO0_IRQ`, `E1000_IRQ`
from `memlayout.h`; `SSTATUS_*`, `PTE_*` and `PGSIZE` from `riscv.h`;
`PROT_*` from `fcntl.h`.  These headers are not under `src/`; the values
below are the standard xv6 / RISC-V / e1000 values the source relies on.
Only the fact that each flag is a fixed nonzero bit matters to the claims. -/

def TX_RING_SIZE : Nat := 16
def RX_RING_SIZE : Nat := 16
def E1000_TXD_STAT_DD : Nat := 1
def E1000_TXD_CMD_EOP : Nat := 1
def E1000_TXD_CMD_RS : Nat := 8
def E1000_RXD_STAT_DD : Nat := 1
def UART0_IRQ : Nat := 10
def VIRTIO0_IRQ : Nat := 1
def E1000_IRQ : Nat := 33
def PGSIZE : Nat := 4096
def PROT_READ : Nat := 1
def PROT_WRITE : Nat := 2
def PROT_EXEC : Nat := 4
def PTE_R : Nat := 2
def PTE_W : Nat := 4
def PTE_X : Nat := 8
def PTE_U : Nat := 16
def SSTATUS_SPP : Nat := 256
def SSTATUS_SPIE : Nat := 32
def SSTATUS_SIE : Nat := 2

/-- The `scause` value of a supervisor external interrupt (`trap.c` line
241). -/
def SCAUSE_EXT : Nat := 0x8000000000000009

/-- The `scause` value of a supervisor timer interrupt (`trap.c` line 261). -/
def SCAUSE_TIMER : Nat := 0x8000000000000005

/-- `PGROUNDDOWN` from `riscv.h`: round a virtual address down to its page
boundary. -/
def PGROUNDDOWN (a : Nat) : Nat := a - a % PGSIZE

/-! ## Buffers and the page allocator

`kalloc` hands out kernel pages.  A buffer is modelled by a numeric
identity; the allocator is a counter handing out fresh identities, plus a
set of allocation steps at which `kalloc` returns null (0), so both the
success and the failure behaviour of the C allocator are expressible. -/

structure AllocSt where
  ctr : Nat
  bad : List Nat
  deriving Repr, DecidableEq

/-- `kalloc`: returns a fresh buffer identity, or `none` for a null return. -/
def kalloc (a : AllocSt) : Option (Nat × AllocSt) :=
  if a.ctr ∈ a.bad then none else some (a.ctr, ⟨a.ctr + 1, a.bad⟩)

/-! ## Transmit ring (`e1000.c` lines 10-12, 40-48, 88-128) -/

/-- `struct tx_desc` from `e1000_dev.h`: address, length, command and status
fields of one hardware transmit descriptor. -/
structure TxDesc where
  addr : Nat
  length : Nat
  cmd : Nat
  status : Nat
  deriving Repr, DecidableEq

/-- Software-visible transmit-side driver state: the `E1000_TDT` tail
register, the descriptor ring `tx_ring`, the owned-buffer array `tx_bufs`
(`none` = null pointer), and the list of buffers handed to `kfree` so far
(model bookkeeping making frees observable). -/
structure TxSt where
  tdt : Nat
  ring : List TxDesc
  bufs : List (Option Nat)
  freed : List Nat
  deriving Repr, DecidableEq

/-- Transmit ring after `e1000_init` (lines 40-48): every descriptor zeroed
except `status = E1000_TXD_STAT_DD`, every buffer slot null, `TDT = 0`. -/
def txInit : TxSt :=
  { tdt := 0
    ring := List.replicate TX_RING_SIZE ⟨0, 0, 0, E1000_TXD_STAT_DD⟩
    bufs := List.replicate TX_RING_SIZE none
    freed := [] }

/-- `e1000_transmit` (lines 88-128), with the ring capacity `n` a parameter
instantiated at `TX_RING_SIZE` by `e1000_transmit` below.  Reads the tail
register modulo the capacity; if the descriptor there lacks
`E1000_TXD_STAT_DD` it releases the lock and returns -1 touching nothing;
otherwise it frees the old buffer (if non-null), installs `buf`, programs
the descriptor, clears its status, and advances the tail register modulo
the capacity.  The `tail < 0 || tail >= TX_RING_SIZE` panic is unreachable
after the modulo and so does not appear. -/
def e1000_transmitN (n : Nat) (s : TxSt) (buf len : Nat) : Int × TxSt :=
  let tail := s.tdt % n
  let d := s.ring.getD tail ⟨0, 0, 0, 0⟩
  if d.status &&& E1000_TXD_STAT_DD = 0 then
    (-1, s)
  else
    let freed' := match s.bufs.getD tail none with
      | some old => s.freed ++ [old]
      | none => s.freed
    let d' : TxDesc :=
      ⟨buf, len, E1000_TXD_CMD_EOP ||| E1000_TXD_CMD_RS, 0⟩
    (0, { tdt := (tail + 1) % n
          ring := s.ring.set tail d'
          bufs := s.bufs.set tail (some buf)
          freed := freed' })

/-- `e1000_transmit` as compiled: capacity fixed at `TX_RING_SIZE`. -/
def e1000_transmit (s : TxSt) (buf len : Nat) : Int × TxSt :=
  e1000_transmitN TX_RING_SIZE s buf len

/-- Run a sequence of transmits, collecting each call's return value. -/
def runTransmits (s : TxSt) : List (Nat × Nat) → List Int × TxSt
  | [] => ([], s)
  | (b, l) :: rest =>
    let (r, s') := e1000_transmit s b l
    let (rs, s'') := runTransmits s' rest
    (r :: rs, s'')

/-- A transmit state whose tail descriptor does not have the done bit: no
free slot, hardware has not completed anything. -/
def txAllBusy : TxSt :=
  { tdt := 0
    ring := List.replicate TX_RING_SIZE ⟨0, 0, 0, 0⟩
    bufs := List.replicate TX_RING_SIZE none
    freed := [] }

/-! ## Receive ring (`e1000.c` lines 14-16, 51-61, 130-159) -/

/-- `struct rx_desc` from `e1000_dev.h`: the fields of one hardware receive
descriptor the source touches. -/
structure RxDesc where
  addr : Nat
  length : Nat
  status : Nat
  deriving Repr, DecidableEq

/-- The loop guard of `e1000_recv`: `rx_ring[tail].status & E1000_RXD_STAT_DD`. -/
def ddSet (d : RxDesc) : Bool := d.status &&& E1000_RXD_STAT_DD != 0

/-- Number of descriptors whose done bit is set (the measure that bounds the
drain loop: each iteration clears exactly one done bit). -/
def doneCount (ring : List RxDesc) : Nat := ring.countP ddSet

/-- Receive-side driver state: the `E1000_RDT` tail register, the descriptor
ring `rx_ring`, the owned-buffer array `rx_bufs`, and the allocator. -/
structure RxSt where
  rdt : Nat
  ring : List RxDesc
  bufs : List (Option Nat)
  alloc : AllocSt
  deriving Repr, DecidableEq

/-- Externally visible events of the receive path: lock acquire/release on
`e1000_lock` and a `net_rx(buf, len)` delivery to the network stack. -/
inductive REv where
  | acq : REv
  | rel : REv
  | deliver : Nat → Nat → REv
  deriving Repr, DecidableEq

/-- Result of a completed (non-panicking) `e1000_recv`: final state, the ring
indices processed in order, and the event trace. -/
structure RxOut where
  st : RxSt
  visited : List Nat
  trace : List REv
  deriving Repr, DecidableEq

/-- The refill step of one drain iteration (lines 149-155 without the
events): install the freshly allocated buffer `nb` at `tail`, program the
descriptor's address, clear its status, and write `tail` to the `RDT`
register. -/
def rxRefill (tail : Nat) (s : RxSt) (nb : Nat) (a' : AllocSt) : RxSt :=
  { rdt := tail
    ring := s.ring.set tail ⟨nb, (s.ring.getD tail ⟨0, 0, 0⟩).length, 0⟩
    bufs := s.bufs.set tail (some nb)
    alloc := a' }

/-- The `while` loop of `e1000_recv` (lines 139-157), returning `none` when
the refill `kalloc` fails (`panic("e1000")`).  Each iteration reads the
buffer and length at `tail`, releases the lock, delivers via `net_rx`,
reacquires the lock, refills the slot (`rxRefill`), and advances `tail`
modulo `RX_RING_SIZE`.  The iteration's events and visited index are
prepended to those of the remaining iterations.  The loop recurses on a
`fuel` bound: each iteration clears one done bit, so
`doneCount s.ring + 1` fuel (what `e1000_recvLoop` supplies) always reaches
the loop's own exit condition first — `recvLoopF_fuel_irrelevant` below
proves the computed result is that of the unbounded `while`. -/
def e1000_recvLoopF (fuel tail : Nat) (s : RxSt) : Option RxOut :=
  match fuel with
  | 0 => none
  | f + 1 =>
    if ddSet (s.ring.getD tail ⟨0, 0, 0⟩) then
      let buf := (s.bufs.getD tail none).getD 0
      let len := (s.ring.getD tail ⟨0, 0, 0⟩).length
      match kalloc s.alloc with
      | none => none
      | some (nb, a') =>
        match e1000_recvLoopF f ((tail + 1) % RX_RING_SIZE) (rxRefill tail s nb a') with
        | none => none
        | some out =>
          some ⟨out.st, tail :: out.visited,
                REv.rel :: REv.deliver buf len :: REv.acq :: out.trace⟩
    else
      some ⟨s, [], []⟩

/-- The drain loop with its sufficient fuel. -/
def e1000_recvLoop (tail : Nat) (s : RxSt) : Option RxOut :=
  e1000_recvLoopF (doneCount s.ring + 1) tail s

/-- `e1000_recv` (lines 130-159): acquire the lock, drain from
`(RDT + 1) % RX_RING_SIZE`, release the lock.  `none` models the
`panic("e1000")` on buffer-refill failure. -/
def e1000_recv (s : RxSt) : Option RxOut :=
  match e1000_recvLoop ((s.rdt + 1) % RX_RING_SIZE) s with
  | none => none
  | some out => some ⟨out.st, out.visited, REv.acq :: (out.trace ++ [REv.rel])⟩

/-- The `net_rx` deliveries of a trace, in order. -/
def deliveredOf : List REv → List (Nat × Nat)
  | [] => []
  | REv.deliver b l :: t => (b, l) :: deliveredOf t
  | _ :: t => deliveredOf t

/-- Replays a trace from `held` nested lock acquisitions and checks that
every delivery happens with the lock not held. -/
def unlockedDeliveries : Nat → List REv → Bool
  | _, [] => true
  | h, REv.acq :: t => unlockedDeliveries (h + 1) t
  | h, REv.rel :: t => unlockedDeliveries (h - 1) t
  | h, REv.deliver _ _ :: t => h == 0 && unlockedDeliveries h t

/-- Checks that every delivery in a trace is immediately preceded by a lock
release and immediately followed by a lock reacquisition. -/
def relAcqBracketed : List REv → Bool
  | REv.rel :: REv.deliver _ _ :: REv.acq :: t => relAcqBracketed t
  | REv.deliver _ _ :: _ => false
  | _ :: t => relAcqBracketed t
  | [] => true

/-- Models the e1000 hardware writing back receive descriptor `i`: the done
bit becomes set and the received length is recorded.  This is the device's
action on the shared ring, not driver code. -/
def hwComplete (i len : Nat) (s : RxSt) : RxSt :=
  { s with ring := s.ring.set i ⟨(s.ring.getD i ⟨0, 0, 0⟩).addr, len, E1000_RXD_STAT_DD⟩ }

/-- Receive state for the scenario "descriptors 0-3 of 16 done": `RDT = 15`
(where `e1000_init` leaves it), slots 0-3 completed with lengths 50-53,
original buffers `0..15` installed, allocator about to hand out identity
16. -/
def rxScenario4 : RxSt :=
  { rdt := 15
    ring := (List.range 16).map (fun i => if i < 4 then ⟨i, 50 + i, 1⟩ else ⟨i, 0, 0⟩)
    bufs := (List.range 16).map (fun i => some i)
    alloc := ⟨16, []⟩ }

/-- Receive state with all 16 descriptors completed. -/
def rxAll16 : RxSt :=
  { rdt := 15
    ring := (List.range 16).map (fun i => ⟨i, 50 + i, 1⟩)
    bufs := (List.range 16).map (fun i => some i)
    alloc := ⟨16, []⟩ }

/-- Receive state with one completed descriptor and an allocator whose next
allocation fails. -/
def rxAllocFail : RxSt :=
  { rdt := 15
    ring := (List.range 16).map (fun i => if i = 0 then ⟨i, 50, 1⟩ else ⟨i, 0, 0⟩)
    bufs := (List.range 16).map (fun i => some i)
    alloc := ⟨16, [16]⟩ }

/-- The output of `e1000_recv` on a state known to drain without panicking
(the default is never reached on the states it is used at). -/
def rxOutOf (s : RxSt) : RxOut := (e1000_recv s).getD ⟨s, [], []⟩

/-! ## Device-interrupt dispatch (`trap.c` lines 219-268) -/

/-- Calls to external collaborators made by `devintr` and `clockintr`: the
PLIC claim/complete pair, the three possible device interrupt entries
(`e1000IntrEv` is in the vocabulary because the spec names the Network
Driver's entry as a dispatch target), the "unexpected interrupt" log, and
the timer actions. -/
inductive DEv where
  | plicClaim : Nat → DEv
  | uartIntrEv : DEv
  | virtioIntrEv : DEv
  | e1000IntrEv : DEv
  | printUnexpected : Nat → DEv
  | plicComplete : Nat → DEv
  | ticksAdvance : DEv
  | wakeupTicks : DEv
  | setTimerCmp : DEv
  deriving Repr, DecidableEq

/-- `clockintr` (lines 219-231): on hart 0 only, advance the shared tick
counter under its lock and wake waiters; on every hart rearm the timer
comparator. -/
def clockintr (cpuid ticks : Nat) : Nat × List DEv :=
  if cpuid = 0 then
    (ticks + 1, [DEv.ticksAdvance, DEv.wakeupTicks, DEv.setTimerCmp])
  else
    (ticks, [DEv.setTimerCmp])

/-- `devintr` (lines 238-268): on a supervisor external interrupt, claim the
pending IRQ from the PLIC, dispatch — `UART0_IRQ` to `uartintr`,
`VIRTIO0_IRQ` to `virtio_disk_intr`, any other nonzero IRQ to the
"unexpected interrupt" log — then complete every nonzero claim and return
1; on a supervisor timer interrupt run `clockintr` and return 2; otherwise
return 0.  `claimedIrq` is what `plic_claim()` returns.  Result:
`(which_dev, ticks afterwards, events)`. -/
def devintr (scause claimedIrq cpuid ticks : Nat) : Nat × Nat × List DEv :=
  if scause = SCAUSE_EXT then
    let irq := claimedIrq
    let devEvs :=
      if irq = UART0_IRQ then [DEv.uartIntrEv]
      else if irq = VIRTIO0_IRQ then [DEv.virtioIntrEv]
      else if irq ≠ 0 then [DEv.printUnexpected irq]
      else []
    let compEvs := if irq ≠ 0 then [DEv.plicComplete irq] else []
    (1, ticks, DEv.plicClaim irq :: (devEvs ++ compEvs))
  else if scause = SCAUSE_TIMER then
    let (t', evs) := clockintr cpuid ticks
    (2, t', evs)
  else
    (0, ticks, [])

/-! ## Kernel trap entry (`trap.c` lines 193-217) -/

/-- The three control-status registers `kerneltrap` saves at entry. -/
structure CSRs where
  sepc : Nat
  sstatus : Nat
  scause : Nat
  deriving Repr, DecidableEq

/-- `kerneltrap` (lines 193-217).  Saves `sepc`, `sstatus`, `scause` into
locals; panics (`none`) unless the trap came from supervisor mode with
interrupts disabled; panics if `devintr` recognizes nothing; on a timer
interrupt with a running process calls `yield()`, whose nested traps may
clobber every saved register (`yieldEff` is that arbitrary disturbance);
finally writes the saved `sepc` and `sstatus` back.  `devintr` does not
touch these three registers (`clockintr` writes only `stimecmp`), so only
`yieldEff` moves them. -/
def kerneltrap (yieldEff : CSRs → CSRs) (hasProc : Bool)
    (claimedIrq cpuid ticks : Nat) (c : CSRs) : Option CSRs :=
  let sepc := c.sepc
  let sstatus := c.sstatus
  if c.sstatus &&& SSTATUS_SPP = 0 then none
  else if c.sstatus &&& SSTATUS_SIE ≠ 0 then none
  else
    let wd := (devintr c.scause claimedIrq cpuid ticks).1
    if wd = 0 then none
    else
      let c1 := if wd = 2 && hasProc then yieldEff c else c
      some { c1 with sepc := sepc, sstatus := sstatus }

/-! ## User trap entry (`trap.c` lines 32-145) -/

/-- A memory-mapped file: its byte contents (`size` is the length). -/
structure FileM where
  data : List Nat
  deriving Repr, DecidableEq

/-- `struct mmap_VMA` from `proc.h` (fields the fault handler reads): the
validity flag, the range `[addr, addr+len)`, the protection mask, the
optional backing file and the mapping's file offset. -/
structure VMA where
  valid : Bool
  addr : Nat
  len : Nat
  prot : Nat
  file : Option FileM
  offset : Nat
  deriving Repr, DecidableEq

/-- The default slot `getD` returns outside the VMA array. -/
def dVMA : VMA := ⟨false, 0, 0, 0, none, 0⟩

/-- The fields of `struct proc` the user-trap path reads and writes: the
killed flag and the saved user program counter `trapframe->epc`, plus the
VMA array. -/
structure Proc where
  killed : Bool
  epc : Nat
  vmas : List VMA
  deriving Repr, DecidableEq

/-- Externally visible events of `usertrap`: process exit, the system-call
handler invocation (carrying the `trapframe->epc` the handler sees),
interrupt re-enabling, the scheduler yield, device-interrupt collaborator
calls, page allocation and free, the backing-file read (offset requested
and bytes read), the `mappages` installation (va, pa, perm), the diagnostic
printf pair, and the return to user space. -/
inductive UEv where
  | exitEv : Int → UEv
  | syscallEv : Nat → UEv
  | intrOnEv : UEv
  | yieldEv : UEv
  | devEv : DEv → UEv
  | kallocEv : Nat → UEv
  | kfreeEv : Nat → UEv
  | readiEv : Nat → Nat → UEv
  | mapEv : Nat → Nat → Nat → UEv
  | printErrEv : UEv
  | panicEv : UEv
  | usertrapretEv : UEv
  deriving Repr, DecidableEq

/-- A page installed by `mappages`: page-aligned virtual address, physical
page, permission bits, and the page's byte contents at installation. -/
structure Mapping where
  va : Nat
  pa : Nat
  perm : Nat
  page : List Nat
  deriving Repr, DecidableEq

/-- The default `Mapping` used by `getD` projections in statements. -/
def dMap : Mapping := ⟨0, 0, 0, []⟩

/-- The protection check of `usertrap` (lines 72-74): the fault kind in
`scause` (0xd load, 0xf store, 0xc instruction) is excluded by the VMA's
protection mask. -/
def protExcluded (scause prot : Nat) : Bool :=
  (scause == 0xd && (prot &&& PROT_READ) == 0) ||
  (scause == 0xc && (prot &&& PROT_EXEC) == 0) ||
  (scause == 0xf && (prot &&& PROT_WRITE) == 0)

/-- The permission computation of `usertrap` (lines 88-92): `PTE_U` plus
`PTE_R`/`PTE_W`/`PTE_X` for each protection bit present. -/
def permFlags (prot : Nat) : Nat :=
  let f := PTE_U
  let f := if prot &&& PROT_READ ≠ 0 then f ||| PTE_R else f
  let f := if prot &&& PROT_WRITE ≠ 0 then f ||| PTE_W else f
  if prot &&& PROT_EXEC ≠ 0 then f ||| PTE_X else f

/-- Modelled from the spec: the file-system read `readi` (`fs.c` is not
among the analysed sources).  Per the spec's external interface
`read(file, user_dest, offset, len) -> bytes_read`, it copies
`min(len, size - offset)` bytes of the backing file starting at `offset`
into the front of the destination page — nothing when `offset` is past the
end of the file — and returns the count.  It cannot return a negative
count. -/
def readi (f : FileM) (dst : List Nat) (off n : Nat) : Nat × List Nat :=
  if off > f.data.length then (0, dst)
  else
    let cnt := min n (f.data.length - off)
    (cnt, (f.data.drop off).take cnt ++ dst.drop cnt)

/-- The offset expression of line 106,
`PGROUNDDOWN(va) - vma->addr + vma->offset`, computed in unsigned 64-bit
arithmetic and then truncated to the 32-bit `uint` offset parameter of
`readi`. -/
def offCalc (va addr off : Nat) : Nat :=
  ((PGROUNDDOWN va + (2 ^ 64 - addr % 2 ^ 64) + off) % 2 ^ 64) % 2 ^ 32

/-- Result of the VMA scan of `usertrap` (lines 65-126): the `find` flag,
whether `setkilled` was called, the allocator afterwards, the events, and
the pages handed to `mappages`. -/
structure FaultRes where
  find : Bool
  killedNow : Bool
  alloc : AllocSt
  evs : List UEv
  mapped : List Mapping
  deriving Repr, DecidableEq

/-- The body of the VMA-scan loop for a valid VMA containing the faulting
address (lines 72-124; every path through the body ends in `break`).  A
protection mismatch logs and kills without allocating; a failed `kalloc`
logs and kills; otherwise the fresh page is zeroed, `find` is set, a
file-backed VMA is read in via `readi` (the C code's check of a negative
`readi` result cannot fire against the modelled `readi`), and `mappages`
installs the page (`mapOk` is the collaborator's verdict; on failure the
page is freed, the fault logs and kills). -/
def handleVMA (scause va : Nat) (vma : VMA) (a : AllocSt) (mapOk : Bool) : FaultRes :=
  if protExcluded scause vma.prot then
    ⟨false, true, a, [UEv.printErrEv], []⟩
  else
    match kalloc a with
    | none => ⟨false, true, a, [UEv.printErrEv], []⟩
    | some (pa, a') =>
      let page0 := List.replicate PGSIZE 0
      let perm := permFlags vma.prot
      match vma.file with
      | some f =>
        let off := offCalc va vma.addr vma.offset
        let (n, page1) := readi f page0 off PGSIZE
        if mapOk then
          ⟨true, false, a',
           [UEv.kallocEv pa, UEv.readiEv off n, UEv.mapEv (PGROUNDDOWN va) pa perm],
           [⟨PGROUNDDOWN va, pa, perm, page1⟩]⟩
        else
          ⟨true, true, a',
           [UEv.kallocEv pa, UEv.readiEv off n, UEv.kfreeEv pa, UEv.printErrEv], []⟩
      | none =>
        if mapOk then
          ⟨true, false, a',
           [UEv.kallocEv pa, UEv.mapEv (PGROUNDDOWN va) pa perm],
           [⟨PGROUNDDOWN va, pa, perm, page0⟩]⟩
        else
          ⟨true, true, a', [UEv.kallocEv pa, UEv.kfreeEv pa, UEv.printErrEv], []⟩

/-- The VMA-scan loop of `usertrap` (lines 66-126): skip invalid slots, and
hand the first valid slot whose range contains the faulting address to the
loop body. -/
def vmaScan (scause va : Nat) (vmas : List VMA) (a : AllocSt) (mapOk : Bool) : FaultRes :=
  match vmas with
  | [] => ⟨false, false, a, [], []⟩
  | vma :: rest =>
    if vma.valid = false then vmaScan scause va rest a mapOk
    else if vma.addr ≤ va ∧ va < vma.addr + vma.len then
      handleVMA scause va vma a mapOk
    else vmaScan scause va rest a mapOk

/-- The page-fault branch of `usertrap` (lines 62-132): run the VMA scan on
`stval`, and if no slot was found (`find == 0`) log and kill. -/
def pageFaultBranch (scause va : Nat) (p : Proc) (a : AllocSt) (mapOk : Bool) :
    Proc × List UEv × List Mapping :=
  let r := vmaScan scause va p.vmas a mapOk
  let p' := if r.killedNow then { p with killed := true } else p
  if r.find = false then
    ({ p' with killed := true }, r.evs ++ [UEv.printErrEv], r.mapped)
  else (p', r.evs, r.mapped)

/-- The collaborators `usertrap` consults: the PLIC claim, the hart id and
tick counter feeding `clockintr`, the system-call handler's effect on the
process, the page allocator, and the `mappages` verdict. -/
structure UTOrac where
  claimedIrq : Nat
  cpuid : Nat
  ticks : Nat
  syscallEff : Proc → Proc
  alloc : AllocSt
  mapOk : Bool

/-- The common tail of `usertrap` (lines 139-144): `exit(-1)` if the process
is killed, else `yield()` on a timer interrupt, then `usertrapret()`. -/
def finishTrap (p : Proc) (wd : Nat) (evs : List UEv) (maps : List Mapping) :
    Proc × List UEv × List Mapping :=
  if p.killed then (p, evs ++ [UEv.exitEv (-1)], maps)
  else if wd = 2 then (p, evs ++ [UEv.yieldEv, UEv.usertrapretEv], maps)
  else (p, evs ++ [UEv.usertrapretEv], maps)

/-- `usertrap` (lines 32-145).  Panics unless the trap came from user mode;
saves the user pc into `trapframe->epc`; then dispatches on `scause`:
8 is a system call (exit immediately if already killed, else advance the
saved pc past the `ecall`, re-enable interrupts, and run the handler), a
`devintr`-recognized cause is a device or timer interrupt, 0xd/0xf/0xc are
page faults handed to the VMA scan, and anything else logs and kills; the
common tail then exits a killed process, yields after a timer interrupt,
and returns to user space. -/
def usertrap (p : Proc) (scause sepc sstatus stval : Nat) (o : UTOrac) :
    Proc × List UEv × List Mapping :=
  if sstatus &&& SSTATUS_SPP ≠ 0 then (p, [UEv.panicEv], [])
  else
    let p1 : Proc := { p with epc := sepc }
    if scause = 8 then
      if p1.killed then (p1, [UEv.exitEv (-1)], [])
      else
        let p2 : Proc := { p1 with epc := (p1.epc + 4) % 2 ^ 64 }
        let p3 := o.syscallEff p2
        finishTrap p3 0 [UEv.intrOnEv, UEv.syscallEv p2.epc] []
    else
      let dres := devintr scause o.claimedIrq o.cpuid o.ticks
      if dres.1 ≠ 0 then
        finishTrap p1 dres.1 (dres.2.2.map UEv.devEv) []
      else if scause = 0xd ∨ scause = 0xf ∨ scause = 0xc then
        let (p', evs, maps) := pageFaultBranch scause stval p1 o.alloc o.mapOk
        finishTrap p' 0 evs maps
      else
        finishTrap { p1 with killed := true } 0 [UEv.printErrEv] []

/-- Recognizes the events C5 forbids: a page allocation or a `mappages`
installation. -/
def isAllocOrMap : UEv → Bool
  | UEv.kallocEv _ => true
  | UEv.mapEv _ _ _ => true
  | _ => false

/-- Two VMA slots do not overlap unless one is invalid (the spec's
disjointness invariant on valid VMAs, in decidable form). -/
def vmaDisjoint (v1 v2 : VMA) : Bool :=
  !v1.valid || !v2.valid ||
    decide (v1.addr + v1.len ≤ v2.addr) || decide (v2.addr + v2.len ≤ v1.addr)

/-- All valid VMAs of the array occupy pairwise disjoint ranges. -/
def vmasDisjoint : List VMA → Bool
  | [] => true
  | v :: rest => rest.all (vmaDisjoint v) && vmasDisjoint rest

/-- A VMA slot that does not cover the address `va` (invalid, or `va`
outside its range). -/
def vmaMisses (va : Nat) (v : VMA) : Bool :=
  !v.valid || decide (va < v.addr) || decide (v.addr + v.len ≤ va)

/-! ## Supporting lemmas -/

/-- A descriptor with a zeroed status field does not have the done bit. -/
theorem ddSet_zero_status (a l : Nat) : ddSet ⟨a, l, 0⟩ = false := by
  simp [ddSet, E1000_RXD_STAT_DD]

/-- Setting a slot to an element falsifying `p` strictly decreases `countP`
when the slot held an element satisfying `p`. -/
theorem countP_set_lt {α : Type} (p : α → Bool) (l : List α) (i : Nat)
    (x d : α) (hd : p d = false) (hx : p x = false)
    (hp : p (l.getD i d) = true) :
    (l.set i x).countP p < l.countP p := by
  induction l generalizing i with
  | nil => simp [List.getD] at hp; rw [hp] at hd; cases hd
  | cons a t ih =>
    cases i with
    | zero =>
      simp only [List.getD_cons_zero] at hp
      simp [List.countP_cons, hp, hx]
    | succ j =>
      simp only [List.getD_cons_succ] at hp
      have := ih j hp
      simp only [List.set, List.countP_cons]
      omega

/-- Refilling a drained slot clears its done bit, so the measure bounding
the drain loop strictly decreases. -/
theorem doneCount_rxRefill_lt (tail : Nat) (s : RxSt) (nb : Nat) (a' : AllocSt)
    (hdd : ddSet (s.ring.getD tail ⟨0, 0, 0⟩) = true) :
    doneCount (rxRefill tail s nb a').ring < doneCount s.ring :=
  countP_set_lt ddSet s.ring tail _ ⟨0, 0, 0⟩ rfl (ddSet_zero_status _ _) hdd

/-- Any fuel above the loop's measure computes the same result: the bounded
recursion of `e1000_recvLoopF` is the source's unbounded `while` loop. -/
theorem recvLoopF_fuel_irrelevant :
    ∀ (f1 f2 tail : Nat) (s : RxSt), doneCount s.ring < f1 → doneCount s.ring < f2 →
      e1000_recvLoopF f1 tail s = e1000_recvLoopF f2 tail s := by
  intro f1
  induction f1 with
  | zero => intro f2 tail s h1 h2; omega
  | succ g ih =>
    intro f2 tail s h1 h2
    match f2 with
    | 0 => omega
    | g2 + 1 =>
      simp only [e1000_recvLoopF]
      by_cases hdd : ddSet (s.ring.getD tail ⟨0, 0, 0⟩) = true
      · simp only [hdd, if_true]
        cases hk : kalloc s.alloc with
        | none => rfl
        | some p =>
          obtain ⟨nb, a'⟩ := p
          have hlt := doneCount_rxRefill_lt tail s nb a' hdd
          dsimp only
          rw [ih g2 ((tail + 1) % RX_RING_SIZE) (rxRefill tail s nb a')
            (by omega) (by omega)]
      · rw [if_neg hdd, if_neg hdd]

/-- Branch lemma: a transmit whose tail descriptor lacks the done bit
returns -1 and the untouched state. -/
theorem transmitN_fail (n : Nat) (s : TxSt) (buf len : Nat)
    (h : (s.ring.getD (s.tdt % n) ⟨0, 0, 0, 0⟩).status &&& E1000_TXD_STAT_DD = 0) :
    e1000_transmitN n s buf len = (-1, s) := by
  simp only [e1000_transmitN, if_pos h]

/-- Branch lemma: a transmit whose tail descriptor has the done bit returns
0 and the state with the buffer installed, the descriptor programmed, the
old buffer freed, and the tail register advanced. -/
theorem transmitN_success (n : Nat) (s : TxSt) (buf len : Nat)
    (h : ¬ (s.ring.getD (s.tdt % n) ⟨0, 0, 0, 0⟩).status &&& E1000_TXD_STAT_DD = 0) :
    e1000_transmitN n s buf len =
      (0, { tdt := (s.tdt % n + 1) % n
            ring := s.ring.set (s.tdt % n)
              ⟨buf, len, E1000_TXD_CMD_EOP ||| E1000_TXD_CMD_RS, 0⟩
            bufs := s.bufs.set (s.tdt % n) (some buf)
            freed := match s.bufs.getD (s.tdt % n) none with
              | some old => s.freed ++ [old]
              | none => s.freed }) := by
  simp only [e1000_transmitN, if_neg h]

/-! ## C2 and C10: the transmit path -/

/-- C2: for every ring capacity and state, a transmit succeeds (returns 0,
installs the caller's buffer at the tail slot, and advances the tail
register by one modulo the capacity) exactly when the descriptor at
`tail mod N` has the done bit, and returns -1 otherwise; and from the
initialized 16-slot ring, 17 back-to-back transmits with no hardware
completions give 16 successes and then one failure. -/
theorem transmit_succeeds_iff_tail_done :
    (∀ (n : Nat) (s : TxSt) (buf len : Nat),
      s.ring.length = n → s.bufs.length = n →
      ((((e1000_transmitN n s buf len).1 = 0) ↔
        (s.ring.getD (s.tdt % n) ⟨0, 0, 0, 0⟩).status &&& E1000_TXD_STAT_DD ≠ 0) ∧
      ((e1000_transmitN n s buf len).1 = 0 →
        (e1000_transmitN n s buf len).2.bufs.getD (s.tdt % n) none = some buf ∧
        (e1000_transmitN n s buf len).2.tdt = (s.tdt % n + 1) % n) ∧
      ((e1000_transmitN n s buf len).1 ≠ 0 →
        (e1000_transmitN n s buf len).1 = -1))) ∧
    (runTransmits txInit (List.replicate 17 (500, 60))).1 =
      List.replicate 16 0 ++ [-1] := by
  constructor
  · intro n s buf len hr hb
    by_cases h : (s.ring.getD (s.tdt % n) ⟨0, 0, 0, 0⟩).status &&& E1000_TXD_STAT_DD = 0
    · rw [transmitN_fail n s buf len h]
      refine ⟨⟨fun h0 => by simp at h0, fun hne => absurd h hne⟩,
        fun h0 => by simp at h0, fun _ => rfl⟩
    · have hlt : s.tdt % n < s.bufs.length := by
        by_contra hge
        rw [List.getD_eq_getElem?_getD,
          List.getElem?_eq_none (by omega : s.ring.length ≤ s.tdt % n)] at h
        exact h (by decide)
      rw [transmitN_success n s buf len h]
      refine ⟨⟨fun _ => h, fun _ => rfl⟩, fun _ => ⟨?_, rfl⟩,
        fun hne => absurd rfl hne⟩
      show (s.bufs.set (s.tdt % n) (some buf)).getD (s.tdt % n) none = some buf
      rw [List.getD_eq_getElem?_getD, List.getElem?_set_eq_of_lt _ hlt]
      rfl
  · decide

/-- C2 witness: concrete application of the general part — on the freshly
initialized ring the first transmit succeeds, installs buffer 500 at slot
0, and advances the tail register to 1. -/
theorem transmit_succeeds_iff_tail_done_witness :
    (e1000_transmitN 16 txInit 500 60).2.bufs.getD (txInit.tdt % 16) none = some 500 ∧
    (e1000_transmitN 16 txInit 500 60).2.tdt = (txInit.tdt % 16 + 1) % 16 :=
  (transmit_succeeds_iff_tail_done.1 16 txInit 500 60 (by decide) (by decide)).2.1
    (by decide)

/-- C10: a transmit that fails because the descriptor at the tail index is
not done returns -1 with the driver state entirely unchanged: no descriptor
written, no buffer freed or installed, tail register untouched. -/
theorem transmit_fail_no_effect :
    ∀ (s : TxSt) (buf len : Nat),
      (s.ring.getD (s.tdt % TX_RING_SIZE) ⟨0, 0, 0, 0⟩).status &&&
        E1000_TXD_STAT_DD = 0 →
      e1000_transmit s buf len = (-1, s) := by
  intro s buf len h
  exact transmitN_fail TX_RING_SIZE s buf len h

/-- C10 witness: on the all-busy ring, a transmit returns -1 and the state
is literally the input state. -/
theorem transmit_fail_no_effect_witness :
    (txAllBusy.ring.getD (txAllBusy.tdt % TX_RING_SIZE) ⟨0, 0, 0, 0⟩).status &&&
      E1000_TXD_STAT_DD = 0 ∧
    e1000_transmit txAllBusy 500 60 = (-1, txAllBusy) :=
  ⟨by decide, transmit_fail_no_effect txAllBusy 500 60 (by decide)⟩

/-! ## Receive-loop lemmas -/

/-- Inversion of the allocator: a successful `kalloc` hands out the counter
value and increments it. -/
theorem kalloc_inv (a : AllocSt) (nb : Nat) (a' : AllocSt)
    (h : kalloc a = some (nb, a')) : nb = a.ctr ∧ a' = ⟨a.ctr + 1, a.bad⟩ := by
  unfold kalloc at h
  split at h
  · cases h
  · injection h with h
    rw [Prod.ext_iff] at h
    exact ⟨h.1.symm, h.2.symm⟩

/-- Inversion of one step of the drain loop. -/
theorem recvLoopF_succ_inv (f tail : Nat) (s : RxSt) (out : RxOut)
    (h : e1000_recvLoopF (f + 1) tail s = some out) :
    (¬ ddSet (s.ring.getD tail ⟨0, 0, 0⟩) = true ∧ out = ⟨s, [], []⟩) ∨
    (ddSet (s.ring.getD tail ⟨0, 0, 0⟩) = true ∧
     ∃ nb a' out', kalloc s.alloc = some (nb, a') ∧
       e1000_recvLoopF f ((tail + 1) % RX_RING_SIZE) (rxRefill tail s nb a') =
         some out' ∧
       out = ⟨out'.st, tail :: out'.visited,
              REv.rel :: REv.deliver ((s.bufs.getD tail none).getD 0)
                ((s.ring.getD tail ⟨0, 0, 0⟩).length) :: REv.acq :: out'.trace⟩) := by
  simp only [e1000_recvLoopF] at h
  by_cases hdd : ddSet (s.ring.getD tail ⟨0, 0, 0⟩) = true
  · rw [if_pos hdd] at h
    refine Or.inr ⟨hdd, ?_⟩
    cases hk : kalloc s.alloc with
    | none => rw [hk] at h; cases h
    | some p =>
      obtain ⟨nb, a'⟩ := p
      rw [hk] at h
      dsimp only at h
      cases hrec : e1000_recvLoopF f ((tail + 1) % RX_RING_SIZE)
          (rxRefill tail s nb a') with
      | none => rw [hrec] at h; cases h
      | some out' =>
        rw [hrec] at h
        dsimp only at h
        injection h with h
        exact ⟨nb, a', out', rfl, hrec, h.symm⟩
  · rw [if_neg hdd] at h
    injection h with h
    exact Or.inl ⟨hdd, h.symm⟩

/-- The loop visits consecutive ring indices: the `j`-th visit is at index
`(tail + j) mod RX_RING_SIZE`. -/
theorem recvLoopF_visited_arith :
    ∀ (fuel tail : Nat) (s : RxSt) (out : RxOut), tail < RX_RING_SIZE →
      e1000_recvLoopF fuel tail s = some out →
      ∀ j, j < out.visited.length →
        out.visited.getD j 0 = (tail + j) % RX_RING_SIZE := by
  intro fuel
  induction fuel with
  | zero => intro tail s out _ h; simp [e1000_recvLoopF] at h
  | succ f ih =>
    intro tail s out htail h j hj
    rcases recvLoopF_succ_inv f tail s out h with ⟨hdd, rfl⟩ |
      ⟨hdd, nb, a', out', hk, hrec, rfl⟩
    · simp at hj
    · dsimp only at hj ⊢
      cases j with
      | zero =>
        rw [List.getD_cons_zero, Nat.add_zero, Nat.mod_eq_of_lt htail]
      | succ k =>
        rw [List.getD_cons_succ]
        have h16 : (tail + 1) % RX_RING_SIZE < RX_RING_SIZE :=
          Nat.mod_lt _ (by decide)
        have hk' : k < out'.visited.length := by
          rw [List.length_cons] at hj; omega
        rw [ih ((tail + 1) % RX_RING_SIZE) (rxRefill tail s nb a') out' h16 hrec k hk']
        simp only [RX_RING_SIZE]
        omega

/-- When the loop returns, the descriptor after the last visited slot does
not have the done bit: draining stopped at the first clear descriptor. -/
theorem recvLoopF_stops_clear :
    ∀ (fuel tail : Nat) (s : RxSt) (out : RxOut), tail < RX_RING_SIZE →
      e1000_recvLoopF fuel tail s = some out →
      ddSet (out.st.ring.getD ((tail + out.visited.length) % RX_RING_SIZE)
        ⟨0, 0, 0⟩) = false := by
  intro fuel
  induction fuel with
  | zero => intro tail s out _ h; simp [e1000_recvLoopF] at h
  | succ f ih =>
    intro tail s out htail h
    rcases recvLoopF_succ_inv f tail s out h with ⟨hdd, rfl⟩ |
      ⟨hdd, nb, a', out', hk, hrec, rfl⟩
    · dsimp only
      rw [List.length_nil, Nat.add_zero, Nat.mod_eq_of_lt htail]
      simpa using hdd
    · dsimp only
      have h16 : (tail + 1) % RX_RING_SIZE < RX_RING_SIZE :=
        Nat.mod_lt _ (by decide)
      have hrest := ih ((tail + 1) % RX_RING_SIZE) (rxRefill tail s nb a') out' h16 hrec
      have heq : (tail + (tail :: out'.visited).length) % RX_RING_SIZE =
          ((tail + 1) % RX_RING_SIZE + out'.visited.length) % RX_RING_SIZE := by
        rw [List.length_cons]
        simp only [RX_RING_SIZE]
        omega
      rw [heq]
      exact hrest

/-- The loop leaves buffer slots it did not visit untouched. -/
theorem recvLoopF_untouched :
    ∀ (fuel tail : Nat) (s : RxSt) (out : RxOut),
      e1000_recvLoopF fuel tail s = some out →
      ∀ i, i ∉ out.visited → out.st.bufs.getD i none = s.bufs.getD i none := by
  intro fuel
  induction fuel with
  | zero => intro tail s out h; simp [e1000_recvLoopF] at h
  | succ f ih =>
    intro tail s out h i hi
    rcases recvLoopF_succ_inv f tail s out h with ⟨hdd, rfl⟩ |
      ⟨hdd, nb, a', out', hk, hrec, rfl⟩
    · rfl
    · dsimp only at hi ⊢
      rw [List.mem_cons] at hi
      push_neg at hi
      obtain ⟨hne, hni⟩ := hi
      rw [ih ((tail + 1) % RX_RING_SIZE) (rxRefill tail s nb a') out' hrec i hni]
      show (s.bufs.set tail (some nb)).getD i none = s.bufs.getD i none
      rw [List.getD_eq_getElem?_getD, List.getD_eq_getElem?_getD,
        List.getElem?_set_ne (fun hc => hne (hc.symm))]

/-- Every slot the loop visits ends holding an installed buffer whose
identity is at least the allocator counter at entry: a fresh, non-null
replacement. -/
theorem recvLoopF_refilled :
    ∀ (fuel tail : Nat) (s : RxSt) (out : RxOut), tail < RX_RING_SIZE →
      s.bufs.length = RX_RING_SIZE →
      e1000_recvLoopF fuel tail s = some out →
      ∀ i, i ∈ out.visited →
        (out.st.bufs.getD i none).isSome = true ∧
        s.alloc.ctr ≤ (out.st.bufs.getD i none).getD 0 := by
  intro fuel
  induction fuel with
  | zero => intro tail s out _ _ h; simp [e1000_recvLoopF] at h
  | succ f ih =>
    intro tail s out htail hlen h i hi
    rcases recvLoopF_succ_inv f tail s out h with ⟨hdd, rfl⟩ |
      ⟨hdd, nb, a', out', hk, hrec, rfl⟩
    · simp at hi
    · obtain ⟨rfl, rfl⟩ := kalloc_inv s.alloc nb a' hk
      have h16 : (tail + 1) % RX_RING_SIZE < RX_RING_SIZE :=
        Nat.mod_lt _ (by decide)
      have hlen' : (rxRefill tail s s.alloc.ctr ⟨s.alloc.ctr + 1, s.alloc.bad⟩).bufs.length =
          RX_RING_SIZE := by
        show (s.bufs.set tail (some s.alloc.ctr)).length = RX_RING_SIZE
        rw [List.length_set]; exact hlen
      have hstep : (rxRefill tail s s.alloc.ctr ⟨s.alloc.ctr + 1, s.alloc.bad⟩).alloc.ctr =
          s.alloc.ctr + 1 := rfl
      dsimp only at hi ⊢
      rw [List.mem_cons] at hi
      have hrec' := ih ((tail + 1) % RX_RING_SIZE) _ out' h16 hlen' hrec
      rcases hi with rfl | hmem
      · by_cases hv : i ∈ out'.visited
        · have h2 := hrec' i hv
          refine ⟨h2.1, ?_⟩
          have h3 := h2.2
          rw [hstep] at h3
          omega
        · have h4 := recvLoopF_untouched f ((i + 1) % RX_RING_SIZE) _ out' hrec i hv
          rw [h4]
          show ((s.bufs.set i (some s.alloc.ctr)).getD i none).isSome = true ∧
            s.alloc.ctr ≤ ((s.bufs.set i (some s.alloc.ctr)).getD i none).getD 0
          rw [List.getD_eq_getElem?_getD,
            List.getElem?_set_eq_of_lt _ (by omega : i < s.bufs.length)]
          exact ⟨rfl, Nat.le_refl _⟩
      · have h2 := hrec' i hmem
        refine ⟨h2.1, ?_⟩
        have h3 := h2.2
        rw [hstep] at h3
        omega

/-- One drain block keeps the lock-replay invariant. -/
theorem unlocked_block (b l : Nat) (t : List REv) :
    unlockedDeliveries 1 (REv.rel :: REv.deliver b l :: REv.acq :: t) =
      unlockedDeliveries 1 t := rfl

/-- One drain block keeps the release-deliver-reacquire bracket shape. -/
theorem bracket_block (b l : Nat) (t : List REv) :
    relAcqBracketed (REv.rel :: REv.deliver b l :: REv.acq :: t) =
      relAcqBracketed t := rfl

/-- The loop's trace, followed by the final release, replays correctly from
one held lock and brackets every delivery between a release and a
reacquisition. -/
theorem recvLoopF_trace_ok :
    ∀ (fuel tail : Nat) (s : RxSt) (out : RxOut),
      e1000_recvLoopF fuel tail s = some out →
      unlockedDeliveries 1 (out.trace ++ [REv.rel]) = true ∧
      relAcqBracketed (out.trace ++ [REv.rel]) = true := by
  intro fuel
  induction fuel with
  | zero => intro tail s out h; simp [e1000_recvLoopF] at h
  | succ f ih =>
    intro tail s out h
    rcases recvLoopF_succ_inv f tail s out h with ⟨hdd, rfl⟩ |
      ⟨hdd, nb, a', out', hk, hrec, rfl⟩
    · exact ⟨rfl, rfl⟩
    · dsimp only
      rw [List.cons_append, List.cons_append, List.cons_append,
        unlocked_block, bracket_block]
      exact ih ((tail + 1) % RX_RING_SIZE) (rxRefill tail s nb a') out' hrec

/-- Inversion of `e1000_recv` into the drain loop. -/
theorem e1000_recv_inv (s : RxSt) (out : RxOut) (h : e1000_recv s = some out) :
    ∃ o0, e1000_recvLoopF (doneCount s.ring + 1) ((s.rdt + 1) % RX_RING_SIZE) s =
        some o0 ∧
      out = ⟨o0.st, o0.visited, REv.acq :: (o0.trace ++ [REv.rel])⟩ := by
  unfold e1000_recv e1000_recvLoop at h
  cases hl : e1000_recvLoopF (doneCount s.ring + 1) ((s.rdt + 1) % RX_RING_SIZE) s with
  | none => rw [hl] at h; cases h
  | some o => rw [hl] at h; dsimp only at h; injection h with h; exact ⟨o, rfl, h.symm⟩

/-! ## C3, C7, C8: the receive path -/

/-- C3: deliveries of `e1000_recv` happen in strictly ascending ring-index
order starting at `(RDT + 1) mod N`, wrapping modulo the capacity, and stop
at the first descriptor without the done bit; with descriptors 0-3 of 16
done, exactly the four slots 0,1,2,3 are drained in order, their original
buffers delivered and fresh buffers 16-19 installed; and with 16 + 1
completions (hardware completing slot 0 again after the full drain), index
0 is visited twice, the second visit delivering the fresh buffer 16 that
was installed between the visits. -/
theorem recv_drains_in_index_order :
    (∀ (s : RxSt) (out : RxOut), e1000_recv s = some out →
      (∀ j, j < out.visited.length →
        out.visited.getD j 0 = ((s.rdt + 1) % RX_RING_SIZE + j) % RX_RING_SIZE) ∧
      ddSet (out.st.ring.getD
        (((s.rdt + 1) % RX_RING_SIZE + out.visited.length) % RX_RING_SIZE)
        ⟨0, 0, 0⟩) = false) ∧
    ((e1000_recv rxScenario4).map RxOut.visited = some [0, 1, 2, 3] ∧
     (e1000_recv rxScenario4).map (fun o => deliveredOf o.trace) =
       some [(0, 50), (1, 51), (2, 52), (3, 53)] ∧
     (e1000_recv rxScenario4).map (fun o => o.st.bufs.take 4) =
       some [some 16, some 17, some 18, some 19]) ∧
    ((e1000_recv rxAll16).map RxOut.visited =
       some [0, 1, 2, 3, 4, 5, 6, 7, 8, 9, 10, 11, 12, 13, 14, 15] ∧
     (e1000_recv rxAll16).map (fun o => o.st.bufs.getD 0 none) = some (some 16) ∧
     ((e1000_recv rxAll16).bind (fun o => e1000_recv (hwComplete 0 99 o.st))).map
       (fun o => (o.visited, deliveredOf o.trace)) = some ([0], [(16, 99)])) := by
  refine ⟨?_, by decide, by decide⟩
  intro s out h
  obtain ⟨o0, hl, rfl⟩ := e1000_recv_inv s out h
  have hstart : (s.rdt + 1) % RX_RING_SIZE < RX_RING_SIZE :=
    Nat.mod_lt _ (by decide)
  constructor
  · intro j hj
    dsimp only at hj ⊢
    exact recvLoopF_visited_arith _ _ _ o0 hstart hl j hj
  · dsimp only
    exact recvLoopF_stops_clear _ _ _ o0 hstart hl

/-- C3 witness: the general part applied at the 4-completed scenario — the
third visit is at index `(15 + 1 + 2) mod 16 = 2`, and the drain stopped at
a clear descriptor. -/
theorem recv_drains_in_index_order_witness :
    (rxOutOf rxScenario4).visited.getD 2 0 =
      ((rxScenario4.rdt + 1) % RX_RING_SIZE + 2) % RX_RING_SIZE ∧
    ddSet ((rxOutOf rxScenario4).st.ring.getD
      (((rxScenario4.rdt + 1) % RX_RING_SIZE + (rxOutOf rxScenario4).visited.length) %
        RX_RING_SIZE) ⟨0, 0, 0⟩) = false := by
  have h := recv_drains_in_index_order.1 rxScenario4 (rxOutOf rxScenario4) (by decide)
  exact ⟨h.1 2 (by decide), h.2⟩

/-- C7: after a non-panicking `e1000_recv`, every drained slot holds an
installed (non-null) buffer whose identity is fresh — at least the
allocator counter at entry, so never a buffer the ring owned before; and a
refill-allocation failure is a system panic (`none`), not a recoverable
per-packet condition. -/
theorem recv_refills_drained_slots :
    (∀ (s : RxSt) (out : RxOut), s.bufs.length = RX_RING_SIZE →
      e1000_recv s = some out →
      ∀ i, i ∈ out.visited →
        (out.st.bufs.getD i none).isSome = true ∧
        s.alloc.ctr ≤ (out.st.bufs.getD i none).getD 0) ∧
    e1000_recv rxAllocFail = none := by
  refine ⟨?_, by decide⟩
  intro s out hlen h i hi
  obtain ⟨o0, hl, rfl⟩ := e1000_recv_inv s out h
  dsimp only at hi ⊢
  exact recvLoopF_refilled _ _ _ o0 (Nat.mod_lt _ (by decide)) hlen hl i hi

/-- C7 witness: in the 4-completed scenario, drained slot 2 ends with an
installed buffer of fresh identity. -/
theorem recv_refills_drained_slots_witness :
    ((rxOutOf rxScenario4).st.bufs.getD 2 none).isSome = true ∧
    rxScenario4.alloc.ctr ≤ ((rxOutOf rxScenario4).st.bufs.getD 2 none).getD 0 :=
  recv_refills_drained_slots.1 rxScenario4 (rxOutOf rxScenario4) (by decide)
    (by decide) 2 (by decide)

/-- C8: in every non-panicking `e1000_recv`, each delivery to the network
stack happens with the ring lock not held, and is immediately preceded by
the lock release and followed by the reacquisition. -/
theorem recv_delivers_unlocked :
    ∀ (s : RxSt) (out : RxOut), e1000_recv s = some out →
      unlockedDeliveries 0 out.trace = true ∧ relAcqBracketed out.trace = true := by
  intro s out h
  obtain ⟨o0, hl, rfl⟩ := e1000_recv_inv s out h
  show unlockedDeliveries 1 (o0.trace ++ [REv.rel]) = true ∧
    relAcqBracketed (o0.trace ++ [REv.rel]) = true
  exact recvLoopF_trace_ok _ _ _ o0 hl

/-- C8 witness: the lock discipline checked on the 4-completed scenario's
actual trace. -/
theorem recv_delivers_unlocked_witness :
    unlockedDeliveries 0 (rxOutOf rxScenario4).trace = true ∧
    relAcqBracketed (rxOutOf rxScenario4).trace = true :=
  recv_delivers_unlocked rxScenario4 (rxOutOf rxScenario4) (by decide)

/-! ## C1: device-interrupt dispatch -/

/-- C1 (evaluation at the failing input): on a supervisor external
interrupt whose PLIC claim is the e1000's IRQ, `devintr` logs
"unexpected interrupt" and signals completion without ever invoking the
Network Driver's interrupt entry; indeed no input at all makes the
dispatcher emit a call to `e1000_intr` — the dispatch table has no e1000
case. -/
theorem devintr_never_dispatches_e1000 :
    devintr SCAUSE_EXT E1000_IRQ 0 0 =
      (1, 0, [DEv.plicClaim E1000_IRQ, DEv.printUnexpected E1000_IRQ,
              DEv.plicComplete E1000_IRQ]) ∧
    (∀ (scause irq cpuid ticks : Nat),
      ((devintr scause irq cpuid ticks).2.2.all
        (fun e => e != DEv.e1000IntrEv)) = true) := by
  constructor
  · decide
  · intro scause irq cpuid ticks
    unfold devintr clockintr
    dsimp only
    split_ifs <;> rfl

/-! ## C4: kernel-trap register restoration -/

/-- C4 counterexample: a timer trap whose `yield` clobbers all three saved
registers returns with `sepc` and `sstatus` restored but with `scause`
changed — the claim that cause, status and program counter are all
explicitly restored is false on the code, which writes back only `sepc`
and `sstatus`. -/
theorem kerneltrap_scause_not_restored :
    kerneltrap (fun _ => ⟨7, 7, 7⟩) true 0 0 0 ⟨100, 256, SCAUSE_TIMER⟩ =
      some ⟨100, 256, 7⟩ ∧
    (((kerneltrap (fun _ => ⟨7, 7, 7⟩) true 0 0 0 ⟨100, 256, SCAUSE_TIMER⟩).getD
        ⟨0, 0, 0⟩).scause == (⟨100, 256, SCAUSE_TIMER⟩ : CSRs).scause) = false :=
  ⟨by decide, by decide⟩

/-- C4 amended: for every kernel trap that returns, the saved program
counter and the saved status register are explicitly restored to their
entry values, even when a timer-triggered yield's nested traps disturbed
them; the saved cause is only read for diagnostics and is not written
back. -/
theorem kerneltrap_restores_sepc_sstatus :
    ∀ (yieldEff : CSRs → CSRs) (hasProc : Bool) (claimedIrq cpuid ticks : Nat)
      (c c' : CSRs),
      kerneltrap yieldEff hasProc claimedIrq cpuid ticks c = some c' →
      c'.sepc = c.sepc ∧ c'.sstatus = c.sstatus := by
  intro yieldEff hasProc claimedIrq cpuid ticks c c' h
  unfold kerneltrap at h
  dsimp only at h
  split_ifs at h
  all_goals first
    | exact Option.noConfusion h
    | (injection h with h; subst h; exact ⟨rfl, rfl⟩)

/-- C4 witness: the amended theorem applied at the counterexample input —
the returned `sepc` and `sstatus` equal the entry values. -/
theorem kerneltrap_restores_sepc_sstatus_witness :
    ((kerneltrap (fun _ => ⟨7, 7, 7⟩) true 0 0 0 ⟨100, 256, SCAUSE_TIMER⟩).getD
      ⟨0, 0, 0⟩).sepc = 100 ∧
    ((kerneltrap (fun _ => ⟨7, 7, 7⟩) true 0 0 0 ⟨100, 256, SCAUSE_TIMER⟩).getD
      ⟨0, 0, 0⟩).sstatus = 256 :=
  kerneltrap_restores_sepc_sstatus (fun _ => ⟨7, 7, 7⟩) true 0 0 0
    ⟨100, 256, SCAUSE_TIMER⟩ _ (by decide)

/-! ## VMA-scan lemmas -/

/-- If every VMA slot misses the faulting address, the scan falls through
with `find` clear and no effect. -/
theorem vmaScan_no_match (scause va : Nat) (a : AllocSt) (mapOk : Bool) :
    ∀ (vmas : List VMA), vmas.all (vmaMisses va) = true →
      vmaScan scause va vmas a mapOk = ⟨false, false, a, [], []⟩ := by
  intro vmas
  induction vmas with
  | nil => intro _; rfl
  | cons v rest ih =>
    intro hall
    rw [List.all_cons, Bool.and_eq_true] at hall
    obtain ⟨hv, hrest⟩ := hall
    unfold vmaScan
    by_cases hval : v.valid = false
    · rw [if_pos hval]; exact ih hrest
    · rw [if_neg hval]
      have hvt : v.valid = true := by
        cases hb : v.valid
        · exact absurd hb hval
        · rfl
      have hm : va < v.addr ∨ v.addr + v.len ≤ va := by
        unfold vmaMisses at hv
        rw [hvt] at hv
        simpa using hv
      have hcond : ¬ (v.addr ≤ va ∧ va < v.addr + v.len) := by
        intro hc; omega
      rw [if_neg hcond]
      exact ih hrest

/-- With pairwise-disjoint valid VMAs, the scan hands the `i`-th slot to the
loop body whenever that slot is valid and covers the faulting address: the
linear first-match scan finds exactly it. -/
theorem vmaScan_first_match (scause va : Nat) (a : AllocSt) (mapOk : Bool) :
    ∀ (vmas : List VMA) (i : Nat), vmasDisjoint vmas = true →
      i < vmas.length →
      (vmas.getD i dVMA).valid = true →
      (vmas.getD i dVMA).addr ≤ va →
      va < (vmas.getD i dVMA).addr + (vmas.getD i dVMA).len →
      vmaScan scause va vmas a mapOk =
        handleVMA scause va (vmas.getD i dVMA) a mapOk := by
  intro vmas
  induction vmas with
  | nil => intro i _ hi; simp at hi
  | cons v rest ih =>
    intro i hdisj hi hval haddr hlen
    have hdisj' : rest.all (vmaDisjoint v) = true ∧ vmasDisjoint rest = true := by
      have hthis := hdisj
      unfold vmasDisjoint at hthis
      rw [Bool.and_eq_true] at hthis
      exact hthis
    cases i with
    | zero =>
      rw [List.getD_cons_zero] at hval haddr hlen ⊢
      unfold vmaScan
      rw [if_neg (by rw [hval]; exact fun hc => Bool.noConfusion hc)]
      rw [if_pos ⟨haddr, hlen⟩]
    | succ j =>
      rw [List.getD_cons_succ] at hval haddr hlen ⊢
      have hj : j < rest.length := by
        rw [List.length_cons] at hi; omega
      unfold vmaScan
      by_cases hvv : v.valid = false
      · rw [if_pos hvv]; exact ih j hdisj'.2 hj hval haddr hlen
      · rw [if_neg hvv]
        have hvt : v.valid = true := by
          cases hb : v.valid
          · exact absurd hb hvv
          · rfl
        have hmem : rest.getD j dVMA ∈ rest := by
          rw [List.getD_eq_getElem?_getD, List.getElem?_eq_getElem hj]
          exact List.getElem_mem hj
        have hdj : vmaDisjoint v (rest.getD j dVMA) = true :=
          List.all_eq_true.mp hdisj'.1 _ hmem
        have hcond : ¬ (v.addr ≤ va ∧ va < v.addr + v.len) := by
          unfold vmaDisjoint at hdj
          rw [hvt, hval] at hdj
          simp at hdj
          have haddr' := haddr
          have hlen' := hlen
          rw [List.getD_eq_getElem?_getD] at haddr' hlen'
          intro hc
          omega
        rw [if_neg hcond]
        exact ih j hdisj'.2 hj hval haddr hlen

/-- `usertrap` on a page-fault cause reduces to the VMA scan followed by the
common trap tail. -/
theorem usertrap_fault_path (p : Proc) (scause sepc sstatus va : Nat) (o : UTOrac)
    (hspp : sstatus &&& SSTATUS_SPP = 0)
    (hsc : scause = 0xd ∨ scause = 0xf ∨ scause = 0xc) :
    usertrap p scause sepc sstatus va o =
      (match pageFaultBranch scause va { p with epc := sepc } o.alloc o.mapOk with
       | (p', evs, maps) => finishTrap p' 0 evs maps) := by
  rcases hsc with rfl | rfl | rfl <;>
  · unfold usertrap
    rw [if_neg (fun hc => hc hspp), if_neg (by decide), if_neg (fun hc => hc rfl),
      if_pos (by decide)]

/-- A protection-excluded fault at the first-matching VMA logs and kills
without touching the allocator or mapper. -/
theorem pageFaultBranch_excluded (scause va : Nat) (p : Proc) (a : AllocSt)
    (mapOk : Bool) (i : Nat)
    (hdisj : vmasDisjoint p.vmas = true) (hi : i < p.vmas.length)
    (hval : (p.vmas.getD i dVMA).valid = true)
    (haddr : (p.vmas.getD i dVMA).addr ≤ va)
    (hlen : va < (p.vmas.getD i dVMA).addr + (p.vmas.getD i dVMA).len)
    (hexcl : protExcluded scause (p.vmas.getD i dVMA).prot = true) :
    pageFaultBranch scause va p a mapOk =
      ({ p with killed := true }, [UEv.printErrEv, UEv.printErrEv], []) := by
  unfold pageFaultBranch
  rw [vmaScan_first_match scause va a mapOk p.vmas i hdisj hi hval haddr hlen]
  unfold handleVMA
  rw [if_pos hexcl]
  rfl

/-- A fault at an address missed by every VMA slot logs and kills. -/
theorem pageFaultBranch_no_match (scause va : Nat) (p : Proc) (a : AllocSt)
    (mapOk : Bool) (hmiss : p.vmas.all (vmaMisses va) = true) :
    pageFaultBranch scause va p a mapOk =
      ({ p with killed := true }, [UEv.printErrEv], []) := by
  unfold pageFaultBranch
  rw [vmaScan_no_match scause va a mapOk p.vmas hmiss]
  rfl

/-- A permitted file-backed fault at the first-matching VMA allocates the
next page, reads the backing file at the computed offset into the zeroed
page, and hands the page to `mappages`. -/
theorem pageFaultBranch_file_ok (scause va : Nat) (p : Proc) (a : AllocSt)
    (i : Nat) (f : FileM)
    (hdisj : vmasDisjoint p.vmas = true) (hi : i < p.vmas.length)
    (hval : (p.vmas.getD i dVMA).valid = true)
    (haddr : (p.vmas.getD i dVMA).addr ≤ va)
    (hlen : va < (p.vmas.getD i dVMA).addr + (p.vmas.getD i dVMA).len)
    (hexcl : protExcluded scause (p.vmas.getD i dVMA).prot = false)
    (hok : decide (a.ctr ∈ a.bad) = false)
    (hf : (p.vmas.getD i dVMA).file = some f) :
    pageFaultBranch scause va p a true =
      (p, [UEv.kallocEv a.ctr,
           UEv.readiEv (offCalc va (p.vmas.getD i dVMA).addr (p.vmas.getD i dVMA).offset)
             (readi f (List.replicate PGSIZE 0)
               (offCalc va (p.vmas.getD i dVMA).addr (p.vmas.getD i dVMA).offset)
               PGSIZE).1,
           UEv.mapEv (PGROUNDDOWN va) a.ctr (permFlags (p.vmas.getD i dVMA).prot)],
       [⟨PGROUNDDOWN va, a.ctr, permFlags (p.vmas.getD i dVMA).prot,
         (readi f (List.replicate PGSIZE 0)
           (offCalc va (p.vmas.getD i dVMA).addr (p.vmas.getD i dVMA).offset)
           PGSIZE).2⟩]) := by
  unfold pageFaultBranch
  rw [vmaScan_first_match scause va a true p.vmas i hdisj hi hval haddr hlen]
  unfold handleVMA
  rw [if_neg (show ¬ (protExcluded scause (p.vmas.getD i dVMA).prot = true) from by
    rw [hexcl]; exact fun hc => Bool.noConfusion hc)]
  rw [show kalloc a = some (a.ctr, ⟨a.ctr + 1, a.bad⟩) from by
    unfold kalloc
    rw [if_neg (by simpa using hok)]]
  rw [hf]
  rfl

/-- What the modelled `readi` leaves in a zeroed page: exactly
`min(PGSIZE, size - off)` file bytes at the front, zeros beyond. -/
theorem readi_spec (f : FileM) (off : Nat) :
    (readi f (List.replicate PGSIZE 0) off PGSIZE).1 =
      min PGSIZE (f.data.length - off) ∧
    ((readi f (List.replicate PGSIZE 0) off PGSIZE).2).length = PGSIZE ∧
    ((readi f (List.replicate PGSIZE 0) off PGSIZE).2).take
        (min PGSIZE (f.data.length - off)) =
      (f.data.drop off).take (min PGSIZE (f.data.length - off)) ∧
    (∀ k, min PGSIZE (f.data.length - off) ≤ k → k < PGSIZE →
      ((readi f (List.replicate PGSIZE 0) off PGSIZE).2).getD k 0 = 0) := by
  unfold readi
  by_cases hov : off > f.data.length
  · rw [if_pos hov]
    have hmin : min PGSIZE (f.data.length - off) = 0 := by omega
    rw [hmin]
    refine ⟨rfl, by simp, by simp, ?_⟩
    intro k _ hk
    rw [List.getD_eq_getElem?_getD, List.getElem?_replicate, if_pos hk]
    rfl
  · rw [if_neg hov]
    dsimp only
    have htl : ((f.data.drop off).take (min PGSIZE (f.data.length - off))).length =
        min PGSIZE (f.data.length - off) := by
      rw [List.length_take, List.length_drop]
      omega
    refine ⟨rfl, ?_, ?_, ?_⟩
    · rw [List.length_append, htl, List.length_drop, List.length_replicate]
      omega
    · rw [List.take_left' htl]
    · intro k hk1 hk2
      rw [List.getD_eq_getElem?_getD,
        List.getElem?_append_right (by rw [htl]; exact hk1), htl,
        List.drop_replicate, List.getElem?_replicate, if_pos (by omega)]
      rfl

/-- With a page-aligned VMA start below the fault address and no 32/64-bit
overflow, the C offset expression is the mathematical
`PGROUNDDOWN(va) - addr + off`. -/
theorem offCalc_eq (va addr off : Nat) (halign : addr % PGSIZE = 0)
    (hle : addr ≤ va) (hsm : va + off < 2 ^ 32) :
    offCalc va addr off = PGROUNDDOWN va - addr + off := by
  have h64 : (2 : Nat) ^ 64 = 18446744073709551616 := by norm_num
  have h32 : (2 : Nat) ^ 32 = 4294967296 := by norm_num
  unfold offCalc PGROUNDDOWN PGSIZE at *
  rw [h64, h32] at *
  omega

/-! ## C9: system-call dispatch -/

/-- C9: a system-call trap of an already-killed process exits immediately —
the system-call handler is never invoked and the exit is the only event;
otherwise the saved program counter is advanced by 4 (the width of the
`ecall` instruction) before the handler is invoked. -/
theorem usertrap_syscall_killed_or_advances :
    (∀ (p : Proc) (sepc sstatus stval : Nat) (o : UTOrac),
      sstatus &&& SSTATUS_SPP = 0 → p.killed = true →
      usertrap p 8 sepc sstatus stval o =
        ({ p with epc := sepc }, [UEv.exitEv (-1)], [])) ∧
    (∀ (p : Proc) (sepc sstatus stval : Nat) (o : UTOrac),
      sstatus &&& SSTATUS_SPP = 0 → p.killed = false →
      (usertrap p 8 sepc sstatus stval o).2.1.take 2 =
        [UEv.intrOnEv, UEv.syscallEv ((sepc + 4) % 2 ^ 64)]) := by
  constructor
  · intro p sepc sstatus stval o hspp hk
    unfold usertrap
    rw [if_neg (fun hc => hc hspp), if_pos rfl,
      if_pos (show ({ p with epc := sepc } : Proc).killed = true from hk)]
  · intro p sepc sstatus stval o hspp hk
    have hk2 : ({ p with epc := sepc } : Proc).killed = false := hk
    unfold usertrap
    rw [if_neg (fun hc => hc hspp), if_pos rfl,
      if_neg (by rw [hk2]; exact fun hc => Bool.noConfusion hc)]
    unfold finishTrap
    dsimp only
    split <;> rfl

/-- C9 witness: a killed process's system call exits with no handler call;
an alive process's system call sees the advanced program counter. -/
theorem usertrap_syscall_killed_or_advances_witness :
    usertrap ⟨true, 0, []⟩ 8 100 0 0 ⟨0, 0, 0, id, ⟨40, []⟩, true⟩ =
      ({ killed := true, epc := 100, vmas := [] }, [UEv.exitEv (-1)], []) ∧
    (usertrap ⟨false, 0, []⟩ 8 100 0 0 ⟨0, 0, 0, id, ⟨40, []⟩, true⟩).2.1.take 2 =
      [UEv.intrOnEv, UEv.syscallEv ((100 + 4) % 2 ^ 64)] :=
  ⟨usertrap_syscall_killed_or_advances.1 ⟨true, 0, []⟩ 100 0 0 _ (by decide) rfl,
   usertrap_syscall_killed_or_advances.2 ⟨false, 0, []⟩ 100 0 0 _ (by decide) rfl⟩

/-! ## C5: faults the handler must not recover -/

/-- C5: a page fault inside a valid VMA whose protection mask excludes the
attempted access kind kills the process and never allocates or maps a page;
a fault at an address outside every valid VMA likewise kills the process
(with the VMA array's documented disjointness, the covering VMA is exactly
the one the linear scan finds). -/
theorem usertrap_fault_violation_kills :
    (∀ (p : Proc) (scause sepc sstatus va : Nat) (o : UTOrac) (i : Nat),
      sstatus &&& SSTATUS_SPP = 0 →
      (scause = 0xd ∨ scause = 0xf ∨ scause = 0xc) →
      vmasDisjoint p.vmas = true →
      i < p.vmas.length →
      (p.vmas.getD i dVMA).valid = true →
      (p.vmas.getD i dVMA).addr ≤ va →
      va < (p.vmas.getD i dVMA).addr + (p.vmas.getD i dVMA).len →
      protExcluded scause (p.vmas.getD i dVMA).prot = true →
      (usertrap p scause sepc sstatus va o).1.killed = true ∧
      (usertrap p scause sepc sstatus va o).2.1 =
        [UEv.printErrEv, UEv.printErrEv, UEv.exitEv (-1)] ∧
      (usertrap p scause sepc sstatus va o).2.2 = [] ∧
      ((usertrap p scause sepc sstatus va o).2.1.all
        (fun e => !isAllocOrMap e)) = true) ∧
    (∀ (p : Proc) (scause sepc sstatus va : Nat) (o : UTOrac),
      sstatus &&& SSTATUS_SPP = 0 →
      (scause = 0xd ∨ scause = 0xf ∨ scause = 0xc) →
      p.vmas.all (vmaMisses va) = true →
      (usertrap p scause sepc sstatus va o).1.killed = true ∧
      (usertrap p scause sepc sstatus va o).2.1 =
        [UEv.printErrEv, UEv.exitEv (-1)] ∧
      (usertrap p scause sepc sstatus va o).2.2 = [] ∧
      ((usertrap p scause sepc sstatus va o).2.1.all
        (fun e => !isAllocOrMap e)) = true) := by
  constructor
  · intro p scause sepc sstatus va o i hspp hsc hdisj hi hval haddr hlen hexcl
    rw [usertrap_fault_path p scause sepc sstatus va o hspp hsc]
    rw [pageFaultBranch_excluded scause va { p with epc := sepc } o.alloc o.mapOk i
      hdisj hi hval haddr hlen hexcl]
    exact ⟨rfl, rfl, rfl, rfl⟩
  · intro p scause sepc sstatus va o hspp hsc hmiss
    rw [usertrap_fault_path p scause sepc sstatus va o hspp hsc]
    rw [pageFaultBranch_no_match scause va { p with epc := sepc } o.alloc o.mapOk hmiss]
    exact ⟨rfl, rfl, rfl, rfl⟩

/-- C5 witness: a store fault on a read-only VMA kills without allocating
or mapping, and a fault outside every VMA kills. -/
theorem usertrap_fault_violation_kills_witness :
    ((usertrap ⟨false, 0, [⟨true, 4096, 8192, PROT_READ, none, 0⟩]⟩ 0xf 0 0 5000
        ⟨0, 0, 0, id, ⟨40, []⟩, true⟩).1.killed = true ∧
     (usertrap ⟨false, 0, [⟨true, 4096, 8192, PROT_READ, none, 0⟩]⟩ 0xf 0 0 5000
        ⟨0, 0, 0, id, ⟨40, []⟩, true⟩).2.2 = []) ∧
    ((usertrap ⟨false, 0, []⟩ 0xd 0 0 5000
        ⟨0, 0, 0, id, ⟨40, []⟩, true⟩).1.killed = true ∧
     (usertrap ⟨false, 0, []⟩ 0xd 0 0 5000
        ⟨0, 0, 0, id, ⟨40, []⟩, true⟩).2.2 = []) := by
  have h1 := usertrap_fault_violation_kills.1
    ⟨false, 0, [⟨true, 4096, 8192, PROT_READ, none, 0⟩]⟩ 0xf 0 0 5000
    ⟨0, 0, 0, id, ⟨40, []⟩, true⟩ 0 (by decide) (Or.inr (Or.inl rfl))
    (by decide) (by decide) (by decide) (by decide) (by decide) (by decide)
  have h2 := usertrap_fault_violation_kills.2 ⟨false, 0, []⟩ 0xd 0 0 5000
    ⟨0, 0, 0, id, ⟨40, []⟩, true⟩ (by decide) (Or.inl rfl) (by decide)
  exact ⟨⟨h1.1, h1.2.2.1⟩, ⟨h2.1, h2.2.2.1⟩⟩

/-! ## C6: file-backed demand paging -/

/-- C6: a permitted fault in a file-backed VMA maps one page whose contents
are exactly `min(PGSIZE, size - offset)` file bytes read at
`PGROUNDDOWN(va) - vma.addr + vma.offset` followed by zeros: every byte of
the page beyond end-of-file is zero, and the read event records exactly
that offset and count. -/
theorem usertrap_file_fault_reads_min :
    ∀ (p : Proc) (scause sepc sstatus va : Nat) (o : UTOrac) (i : Nat) (f : FileM),
      sstatus &&& SSTATUS_SPP = 0 →
      (scause = 0xd ∨ scause = 0xf ∨ scause = 0xc) →
      p.killed = false →
      o.mapOk = true →
      decide (o.alloc.ctr ∈ o.alloc.bad) = false →
      vmasDisjoint p.vmas = true →
      i < p.vmas.length →
      (p.vmas.getD i dVMA).valid = true →
      (p.vmas.getD i dVMA).addr ≤ va →
      va < (p.vmas.getD i dVMA).addr + (p.vmas.getD i dVMA).len →
      protExcluded scause (p.vmas.getD i dVMA).prot = false →
      (p.vmas.getD i dVMA).file = some f →
      (p.vmas.getD i dVMA).addr % PGSIZE = 0 →
      va + (p.vmas.getD i dVMA).offset < 2 ^ 32 →
      ((usertrap p scause sepc sstatus va o).2.2.length = 1 ∧
       ((usertrap p scause sepc sstatus va o).2.2.getD 0 dMap).va = PGROUNDDOWN va ∧
       ((usertrap p scause sepc sstatus va o).2.2.getD 0 dMap).page.length = PGSIZE ∧
       ((usertrap p scause sepc sstatus va o).2.2.getD 0 dMap).page.take
           (min PGSIZE (f.data.length -
             (PGROUNDDOWN va - (p.vmas.getD i dVMA).addr + (p.vmas.getD i dVMA).offset))) =
         (f.data.drop
             (PGROUNDDOWN va - (p.vmas.getD i dVMA).addr + (p.vmas.getD i dVMA).offset)).take
           (min PGSIZE (f.data.length -
             (PGROUNDDOWN va - (p.vmas.getD i dVMA).addr + (p.vmas.getD i dVMA).offset))) ∧
       (∀ k, min PGSIZE (f.data.length -
             (PGROUNDDOWN va - (p.vmas.getD i dVMA).addr + (p.vmas.getD i dVMA).offset)) ≤ k →
          k < PGSIZE →
          ((usertrap p scause sepc sstatus va o).2.2.getD 0 dMap).page.getD k 0 = 0) ∧
       ((usertrap p scause sepc sstatus va o).2.1.contains
         (UEv.readiEv
           (PGROUNDDOWN va - (p.vmas.getD i dVMA).addr + (p.vmas.getD i dVMA).offset)
           (min PGSIZE (f.data.length -
             (PGROUNDDOWN va - (p.vmas.getD i dVMA).addr +
               (p.vmas.getD i dVMA).offset))))) = true) := by
  intro p scause sepc sstatus va o i f hspp hsc hkill hmap hok hdisj hi hval haddr
    hlen hexcl hf halign hsm
  have hoff : offCalc va (p.vmas.getD i dVMA).addr (p.vmas.getD i dVMA).offset =
      PGROUNDDOWN va - (p.vmas.getD i dVMA).addr + (p.vmas.getD i dVMA).offset :=
    offCalc_eq va _ _ halign haddr hsm
  have hr := readi_spec f
    (PGROUNDDOWN va - (p.vmas.getD i dVMA).addr + (p.vmas.getD i dVMA).offset)
  rw [usertrap_fault_path p scause sepc sstatus va o hspp hsc]
  rw [show o.mapOk = true from hmap] at *
  rw [pageFaultBranch_file_ok scause va { p with epc := sepc } o.alloc i f
    hdisj hi hval haddr hlen hexcl hok hf]
  rw [hoff]
  dsimp only
  unfold finishTrap
  dsimp only
  rw [hkill]
  refine ⟨rfl, rfl, hr.2.1, hr.2.2.1, hr.2.2.2, ?_⟩
  rw [hr.1]
  simp

/-- C6 witness: a 3-byte backing file read into the mapped page — the page
starts with the file bytes and is zero beyond end-of-file. -/
theorem usertrap_file_fault_reads_min_witness :
    (usertrap ⟨false, 0, [⟨true, 4096, 8192, PROT_READ, some ⟨[10, 11, 12]⟩, 0⟩]⟩
        0xd 0 0 4096 ⟨0, 0, 0, id, ⟨40, []⟩, true⟩).2.2.length = 1 ∧
    ((usertrap ⟨false, 0, [⟨true, 4096, 8192, PROT_READ, some ⟨[10, 11, 12]⟩, 0⟩]⟩
        0xd 0 0 4096 ⟨0, 0, 0, id, ⟨40, []⟩, true⟩).2.2.getD 0 dMap).page.take 3 =
      [10, 11, 12] ∧
    ((usertrap ⟨false, 0, [⟨true, 4096, 8192, PROT_READ, some ⟨[10, 11, 12]⟩, 0⟩]⟩
        0xd 0 0 4096 ⟨0, 0, 0, id, ⟨40, []⟩, true⟩).2.2.getD 0 dMap).page.getD 100 0 = 0 := by
  have h := usertrap_file_fault_reads_min
    ⟨false, 0, [⟨true, 4096, 8192, PROT_READ, some ⟨[10, 11, 12]⟩, 0⟩]⟩
    0xd 0 0 4096 ⟨0, 0, 0, id, ⟨40, []⟩, true⟩ 0 ⟨[10, 11, 12]⟩
    (by decide) (Or.inl rfl) rfl rfl (by decide) (by decide) (by decide)
    (by decide) (by decide) (by decide) (by decide) (by decide) (by decide)
    (by decide)
  exact ⟨h.1, h.2.2.2.1, h.2.2.2.2.1 100 (by decide) (by decide)⟩

end Xv6
